import Mathlib

/-!
Verification development for the `water_salt_detection` repository
(`water_area.py`, `salt_area.py`).

Embedding conventions:
* A numpy float32 value is idealised as `Scalar := Option ℚ`, where `none`
  models NaN (not-a-number) and `some q` a finite real value; float rounding
  is idealised away (the properties at stake are exact-arithmetic ones).
* A 2-D numpy array (`ReadAsArray` result) is `NpArr`: a shape `rows × cols`
  plus a total data function; only indices inside the shape are meaningful.
* Elementwise binary operations follow numpy broadcasting on 2-D shapes:
  two dimensions are compatible when equal or when one of them is 1; an
  incompatible pair raises `ValueError`, modelled by returning `none` at the
  `Option NpArr` level (the Python code catches every exception and turns it
  into a per-file `None`).
* `np.divide(num, den, where=(den != 0))` with no `out=` argument returns a
  freshly allocated, *uninitialised* buffer whose entries where the condition
  is false keep whatever was in memory; that buffer content is modelled by an
  explicit `junk` function carried by each raster file.
* NaN comparison semantics: `NaN != 0` is true, `NaN > t`, `NaN >= t`,
  `NaN <= t` are all false; `np.maximum` and arithmetic propagate NaN.
-/

/-- A numpy float32 scalar: `none` is NaN, `some q` a finite value. -/
def Scalar : Type := Option ℚ

instance : DecidableEq Scalar := by unfold Scalar; infer_instance

/-- NaN-propagating addition (numpy `+`). -/
def scalarAdd (a b : Scalar) : Scalar :=
  match a, b with
  | some x, some y => some (x + y)
  | _, _ => none

/-- NaN-propagating subtraction (numpy `-`). -/
def scalarSub (a b : Scalar) : Scalar :=
  match a, b with
  | some x, some y => some (x - y)
  | _, _ => none

/-- NaN-propagating multiplication (numpy `*`). -/
def scalarMul (a b : Scalar) : Scalar :=
  match a, b with
  | some x, some y => some (x * y)
  | _, _ => none

/-- NaN-propagating division; division of finite values by exact zero would
produce inf/NaN in numpy, modelled as `none` (it is only ever reached under
the `where=(den != 0)` guard, so this corner is unreachable in the program). -/
def scalarDiv (a b : Scalar) : Scalar :=
  match a, b with
  | some x, some y => if y = 0 then none else some (x / y)
  | _, _ => none

/-- numpy `x != 0` elementwise test: NaN compares as "not equal to 0". -/
def scalarNeqZero (a : Scalar) : Bool :=
  match a with
  | some x => decide (x ≠ 0)
  | none => true

/-- numpy `np.maximum(x, 0)`: NaN propagates. -/
def scalarMaxZero (a : Scalar) : Scalar :=
  match a with
  | some x => some (max x 0)
  | none => none

/-- numpy scalar-times-array entry: `0.3 * x`; NaN propagates. -/
def scalarConstMul (q : ℚ) (a : Scalar) : Scalar :=
  match a with
  | some x => some (q * x)
  | none => none

/-- numpy strict comparison `x > t`: false on NaN. -/
def scalarGt (a : Scalar) (t : ℚ) : Bool :=
  match a with
  | some x => decide (t < x)
  | none => false

/-- numpy `(x >= lo) & (x <= hi)`: false on NaN. -/
def scalarBetween (a : Scalar) (lo hi : ℚ) : Bool :=
  match a with
  | some x => decide (lo ≤ x) && decide (x ≤ hi)
  | none => false

/-- A 2-D numpy array: shape plus data; entries outside the shape are
irrelevant. -/
structure NpArr where
  rows : ℕ
  cols : ℕ
  data : ℕ → ℕ → Scalar

/-- Broadcast one dimension pair (numpy rule restricted to 2-D arrays):
equal dims broadcast to themselves, a dim of 1 stretches to the other;
otherwise `ValueError`. -/
def bcastDim (m n : ℕ) : Option ℕ :=
  if m = n then some m
  else if m = 1 then some n
  else if n = 1 then some m
  else none

/-- Index into a possibly-stretched dimension: a dimension of 1 always reads
index 0. -/
def bcastIx (n i : ℕ) : ℕ :=
  if n = 1 then 0 else i

/-- Elementwise binary operation with numpy 2-D broadcasting; `none` models
the `ValueError` numpy raises on incompatible shapes. -/
def npBinop (f : Scalar → Scalar → Scalar) (a b : NpArr) : Option NpArr :=
  match bcastDim a.rows b.rows, bcastDim a.cols b.cols with
  | some r, some c =>
      some ⟨r, c, fun i j =>
        f (a.data (bcastIx a.rows i) (bcastIx a.cols j))
          (b.data (bcastIx b.rows i) (bcastIx b.cols j))⟩
  | _, _ => none

/-- `green_array - nir_array` etc. -/
def npSub (a b : NpArr) : Option NpArr := npBinop scalarSub a b

/-- `green_array + nir_array`. -/
def npAdd (a b : NpArr) : Option NpArr := npBinop scalarAdd a b

/-- Elementwise array product (`sci_expr * green_array`). -/
def npMul (a b : NpArr) : Option NpArr := npBinop scalarMul a b

/-- `0.3 * arr`: scalar times array, never a shape error. -/
def npConstMul (q : ℚ) (a : NpArr) : NpArr :=
  ⟨a.rows, a.cols, fun i j => scalarConstMul q (a.data i j)⟩

/-- `np.maximum(arr, 0)`: scalar second operand, never a shape error. -/
def npMaxZero (a : NpArr) : NpArr :=
  ⟨a.rows, a.cols, fun i j => scalarMaxZero (a.data i j)⟩

/-- `np.divide(num, den, where=(den != 0))` with no `out=`: at positions
where the denominator is exactly zero the freshly allocated output buffer
stays *uninitialised*; `junk` is that pre-existing buffer content. -/
def npDivideWhere (num den : NpArr) (junk : ℕ → ℕ → Scalar) : Option NpArr :=
  match bcastDim num.rows den.rows, bcastDim num.cols den.cols with
  | some r, some c =>
      some ⟨r, c, fun i j =>
        let d := den.data (bcastIx den.rows i) (bcastIx den.cols j)
        if scalarNeqZero d then
          scalarDiv (num.data (bcastIx num.rows i) (bcastIx num.cols j)) d
        else junk i j⟩
  | _, _ => none

/-- One entry of `arr[np.isnan(arr)] = 0`: NaN becomes 0, finite values are
kept. -/
def fixNanScalar (s : Scalar) : Scalar :=
  match s with
  | none => some 0
  | some x => some x

/-- `arr[np.isnan(arr)] = 0`: every NaN entry is overwritten with 0. -/
def npFixNan (a : NpArr) : NpArr :=
  ⟨a.rows, a.cols, fun i j => fixNanScalar (a.data i j)⟩

/-- `np.sum(mask)` for a boolean mask `p` applied to `a`: the number of
in-shape positions where `p` holds. -/
def npCount (a : NpArr) (p : Scalar → Bool) : ℕ :=
  ((Finset.range a.rows ×ˢ Finset.range a.cols).filter
    (fun ij => p (a.data ij.1 ij.2) = true)).card

/-- A raster file as seen through GDAL: `dataset = none` models
`gdal.Open` returning `None`; otherwise `GetRasterBand(n).ReadAsArray()`
yields `bands n` (with `none` for a missing band, whose use raises and is
caught). `junk` is the uninitialised buffer content `np.divide` leaves at
masked-out positions. -/
structure RasterFile where
  name : String
  dataset : Option (ℕ → Option NpArr)
  junk : ℕ → ℕ → Scalar

/-- `water_area.py` lines 41-44: numerator, denominator, guarded divide —
the NDWI array before the NaN fixup of line 45. -/
def water_ndwi_raw (green nir : NpArr) (junk : ℕ → ℕ → Scalar) : Option NpArr :=
  (npSub green nir).bind fun numerator =>
  (npAdd green nir).bind fun denominator =>
  npDivideWhere numerator denominator junk

/-- `water_area.py` lines 41-45: NDWI after `ndwi[np.isnan(ndwi)] = 0` —
the array the water mask is evaluated on. -/
def water_ndwi (green nir : NpArr) (junk : ℕ → ℕ → Scalar) : Option NpArr :=
  (water_ndwi_raw green nir junk).map npFixNan

/-- `water_area.py` `calculate_water_area`: open the dataset, read the two
bands, compute NDWI, threshold with strict `>`, count, multiply by the pixel
area. Every failure path (open failure, missing band, shape `ValueError`)
returns `none`, matching the `except`-clause returning `None`. -/
def calculate_water_area (f : RasterFile) (green_band_num nir_band_num : ℕ)
    (threshold pixel_area : ℚ) : Option ℚ :=
  match f.dataset with
  | none => none
  | some bands =>
    match bands green_band_num, bands nir_band_num with
    | some green, some nir =>
      match water_ndwi green nir f.junk with
      | some ndwi =>
          some ((npCount ndwi (fun s => scalarGt s threshold) : ℚ) * pixel_area)
      | none => none
    | _, _ => none

/-- `salt_area.py` lines 36-42: the SCI expression before the NaN fixup:
`(red - green) - 0.3*((nir - swir) - (red - swir))`, clamped at 0, times the
green band. -/
def salt_sci_raw (green nir red swir : NpArr) : Option NpArr :=
  (npSub red green).bind fun s1 =>
  (npSub nir swir).bind fun s2 =>
  (npSub red swir).bind fun s3 =>
  (npSub s2 s3).bind fun s4 =>
  (npSub s1 (npConstMul (3/10) s4)).bind fun s6 =>
  npMul (npMaxZero s6) green

/-- `salt_area.py` lines 36-44: SCI with the NaN fixup `SCI[np.isnan(SCI)] = 0`. -/
def salt_sci (green nir red swir : NpArr) : Option NpArr :=
  (salt_sci_raw green nir red swir).map npFixNan

/-- `salt_area.py` `calculate_salt_area`: four bands, SCI, inclusive band
mask `(SCI >= threshold_min) & (SCI <= threshold_max)`, count, times pixel
area; all failures collapse to `none` via the `except` clause. -/
def calculate_salt_area (f : RasterFile)
    (green_band_num nir_band_num red_band_num swir_band_num : ℕ)
    (threshold_min threshold_max pixel_area : ℚ) : Option ℚ :=
  match f.dataset with
  | none => none
  | some bands =>
    match bands green_band_num, bands nir_band_num,
          bands red_band_num, bands swir_band_num with
    | some green, some nir, some red, some swir =>
      match salt_sci green nir red swir with
      | some sci =>
          some ((npCount sci
            (fun s => scalarBetween s threshold_min threshold_max) : ℚ)
            * pixel_area)
      | none => none
    | _, _, _, _ => none

/-- Is `c` one of the ten ASCII digits (regex `\d`)? -/
def isAsciiDigit (c : Char) : Bool :=
  decide ('0' ≤ c) && decide (c ≤ '9')

/-- Numeric value of an ASCII digit. -/
def digitVal (c : Char) : ℕ := c.toNat - 48

/-- One anchored attempt of the regex `(19|20)\d{2}` at the head of the
character list: matches when the first two characters are "19" or "20" and
the next two are digits; yields `int(match.group(0))`. -/
def yearAt (l : List Char) : Option ℕ :=
  match l with
  | c0 :: c1 :: c2 :: c3 :: _ =>
      if ((c0 = '1' ∧ c1 = '9') ∨ (c0 = '2' ∧ c1 = '0'))
          ∧ isAsciiDigit c2 ∧ isAsciiDigit c3 then
        some (1000 * digitVal c0 + 100 * digitVal c1
              + 10 * digitVal c2 + digitVal c3)
      else none
  | _ => none

/-- `re.search(r'(19|20)\d{2}', filename)` followed by `int(match.group(0))`:
scan start positions left to right, return the first anchored match;
`none` models the `None` return on no match. -/
def extract_year_from_filename : List Char → Option ℕ
  | [] => none
  | c :: rest =>
    match yearAt (c :: rest) with
    | some y => some y
    | none => extract_year_from_filename rest

/-- `filename.lower().endswith(('.tif', '.tiff'))`. -/
def isTifName (name : String) : Bool :=
  let l := name.toList.map Char.toLower
  List.isSuffixOf ".tif".toList l || List.isSuffixOf ".tiff".toList l

/-- One iteration of the water batch loop (`water_area.py` lines 132-155):
extension filter, year extraction, Python truthiness test `if year:`, area
computation; `some (year, area)` exactly when a sample is appended. -/
def water_processFile (f : RasterFile) : Option (ℕ × ℚ) :=
  if isTifName f.name then
    match extract_year_from_filename f.name.toList with
    | some year =>
        if year ≠ 0 then
          (calculate_water_area f 2 4 (1/5) 900).map (fun area => (year, area))
        else none
    | none => none
  else none

/-- The water time-series accumulation over the (sorted) directory listing:
each file appends at most one `(year, area)` sample, in order. -/
def water_loop (files : List RasterFile) : List (ℕ × ℚ) :=
  files.filterMap water_processFile

/-- One iteration of the salt batch loop (`salt_area.py` lines 135-161). -/
def salt_processFile (f : RasterFile) : Option (ℕ × ℚ) :=
  if isTifName f.name then
    match extract_year_from_filename f.name.toList with
    | some year =>
        if year ≠ 0 then
          (calculate_salt_area f 1 4 3 6 (1/25) (3/20) 900).map
            (fun area => (year, area))
        else none
    | none => none
  else none

/-- The salt time-series accumulation. -/
def salt_loop (files : List RasterFile) : List (ℕ × ℚ) :=
  files.filterMap salt_processFile

/-- Names bound at module level by the import block of `water_area.py`
(lines 1-8). -/
def water_imports : List String :=
  ["np", "gdal", "os", "plt", "re", "mpatches", "ListedColormap", "sys"]

/-- Names bound at module level by the import block of `salt_area.py`
(lines 1-7): `sys` is never imported there. -/
def salt_imports : List String :=
  ["np", "gdal", "os", "plt", "re", "mpatches", "ListedColormap"]

/-- Observable outcome of running a variant's `__main__` block. -/
inductive RunOutcome where
  | usageExit (code : ℕ)
  | uncaughtError (exc : String)
  | dirErrorExit (code : ℕ)
  | dirErrorEnd
  | completed (samples : List (ℕ × ℚ))
deriving DecidableEq

/-- `water_area.py` `__main__` (lines 102-160): the first statement evaluates
`len(sys.argv)`, which raises `NameError` unless `sys` is a bound name; then
wrong argument count prints usage and `sys.exit(1)`; a missing directory
prints an error and `sys.exit(1)`; otherwise the scan runs and the plot is
shown. -/
def water_main (argv : List String) (dirExists : Bool)
    (files : List RasterFile) : RunOutcome :=
  if "sys" ∈ water_imports then
    if argv.length ≠ 2 then .usageExit 1
    else if ¬ dirExists then .dirErrorExit 1
    else .completed (water_loop files)
  else .uncaughtError "NameError"

/-- `salt_area.py` `__main__` (lines 103-166): same shape, except the missing
directory only prints an error and falls through to the end of the script
(exit status 0, no scan, no plot call). The guard on `sys` reflects that
`salt_area.py` never imports `sys`, so `len(sys.argv)` raises `NameError`. -/
def salt_main (argv : List String) (dirExists : Bool)
    (files : List RasterFile) : RunOutcome :=
  if "sys" ∈ salt_imports then
    if argv.length ≠ 2 then .usageExit 1
    else if ¬ dirExists then .dirErrorEnd
    else .completed (salt_loop files)
  else .uncaughtError "NameError"

/-- Python tuple comparison on `(year, area)` pairs: lexicographic, year
first, then area. -/
def tupleLe (a b : ℕ × ℚ) : Prop :=
  a.1 < b.1 ∨ (a.1 = b.1 ∧ a.2 ≤ b.2)

instance : DecidableRel tupleLe := fun a b => by
  unfold tupleLe; infer_instance

instance : IsTotal (ℕ × ℚ) tupleLe where
  total a b := by
    rcases lt_trichotomy a.1 b.1 with h | h | h
    · exact Or.inl (Or.inl h)
    · rcases le_total a.2 b.2 with h2 | h2
      · exact Or.inl (Or.inr ⟨h, h2⟩)
      · exact Or.inr (Or.inr ⟨h.symm, h2⟩)
    · exact Or.inr (Or.inl h)

instance : IsTrans (ℕ × ℚ) tupleLe where
  trans a b c hab hbc := by
    rcases hab with h1 | ⟨e1, l1⟩
    · rcases hbc with h2 | ⟨e2, _⟩
      · exact Or.inl (h1.trans h2)
      · exact Or.inl (e2 ▸ h1)
    · rcases hbc with h2 | ⟨e2, l2⟩
      · exact Or.inl (e1 ▸ h2)
      · exact Or.inr ⟨e1.trans e2, l1.trans l2⟩

/-- `time_series_data.sort()` in `plot_area_over_time`: Python's stable sort
under tuple comparison, modelled by (stable) insertion sort under `tupleLe`. -/
def plot_sort (l : List (ℕ × ℚ)) : List (ℕ × ℚ) :=
  List.insertionSort tupleLe l

/-! Concrete inputs used by counterexamples and witnesses. -/

/-- 1×2 green band: pixel (0,0) = 3, pixel (0,1) = 1. -/
def c1Green : NpArr := ⟨1, 2, fun _ j => if j = 0 then some 3 else some 1⟩

/-- 1×2 NIR band: both pixels −1, so pixel (0,0) has denominator 2 and
pixel (0,1) has denominator exactly 0. -/
def c1Nir : NpArr := ⟨1, 2, fun _ _ => some (-1)⟩

/-- Uninitialised-buffer content: every entry happens to hold 7.0. -/
def c1Junk : ℕ → ℕ → Scalar := fun _ _ => some 7

/-- 1×1 green band holding 2. -/
def w1Green : NpArr := ⟨1, 1, fun _ _ => some 2⟩

/-- 1×1 NIR band holding 1. -/
def w1Nir : NpArr := ⟨1, 1, fun _ _ => some 9⟩

/-- Arbitrary buffer content for the C1 witness. -/
def w1Junk : ℕ → ℕ → Scalar := fun _ _ => some 5

/-- 1×1 green band holding 1 (broadcast-compatible mismatch). -/
def c2Green : NpArr := ⟨1, 1, fun _ _ => some 1⟩

/-- 2×1 NIR band holding 0: a different shape that numpy broadcasts. -/
def c2Nir : NpArr := ⟨2, 1, fun _ _ => some 0⟩

/-- A raster file whose green (band 2) and NIR (band 4) arrays have
different but broadcast-compatible shapes. -/
def c2File : RasterFile :=
  ⟨"mismatch_2003.tif",
   some (fun b => if b = 2 then some c2Green else some c2Nir),
   fun _ _ => some 0⟩

/-- 2×1 band. -/
def w2A : NpArr := ⟨2, 1, fun _ _ => some 1⟩

/-- 3×1 band: 2 vs 3 rows is not broadcast-compatible. -/
def w2B : NpArr := ⟨3, 1, fun _ _ => some 1⟩

/-- A raster file whose band 2 is 2×1 and band 4 is 3×1 (water variant), and
whose band 3 is 3×1 while band 1 is 2×1 (salt variant): numpy raises
`ValueError` in both variants. -/
def w2File : RasterFile :=
  ⟨"bad_2003.tif",
   some (fun b => if b = 4 ∨ b = 3 then some w2B else some w2A),
   fun _ _ => some 0⟩

/-- 1×1 band holding 2 (C5 witness, green). -/
def s5Green : NpArr := ⟨1, 1, fun _ _ => some 2⟩

/-- 1×1 band holding 1 (C5 witness, NIR). -/
def s5Nir : NpArr := ⟨1, 1, fun _ _ => some 1⟩

/-- 1×1 band holding 5 (C5 witness, red). -/
def s5Red : NpArr := ⟨1, 1, fun _ _ => some 5⟩

/-- 1×1 band holding 3 (C5 witness, SWIR). -/
def s5Swir : NpArr := ⟨1, 1, fun _ _ => some 3⟩

/-- 1×1 band holding NaN at its only pixel. -/
def nanG : NpArr := ⟨1, 1, fun _ _ => none⟩

/-- 1×1 band holding 1. -/
def nanN : NpArr := ⟨1, 1, fun _ _ => some 1⟩

/-- Buffer content for the C6 witness. -/
def nanJunk : ℕ → ℕ → Scalar := fun _ _ => some 0

/-- 1×2 index array: values 1 and 0 (C9 witness). -/
def a9 : NpArr := ⟨1, 2, fun _ j => if j = 0 then some 1 else some 0⟩

/-- A well-formed raster file: every band is the 1×1 array holding 1, the
filename carries the year 2003 and a `.tif` extension. -/
def exFile : RasterFile :=
  ⟨"lake_2003.tif",
   some (fun _ => some ⟨1, 1, fun _ _ => some 1⟩),
   fun _ _ => some 0⟩

/-! Helper lemmas about the embedding. -/

theorem bcastDim_self (n : ℕ) : bcastDim n n = some n := by
  simp [bcastDim]

theorem bcastIx_lt {n i : ℕ} (h : i < n) : bcastIx n i = i := by
  unfold bcastIx
  rcases eq_or_ne n 1 with h1 | h1
  · subst h1; simp; omega
  · simp [h1]

theorem npBinop_same (f : Scalar → Scalar → Scalar) (a b : NpArr)
    (hr : a.rows = b.rows) (hc : a.cols = b.cols) :
    ∃ c, npBinop f a b = some c ∧ c.rows = a.rows ∧ c.cols = a.cols ∧
      ∀ i j, i < a.rows → j < a.cols →
        c.data i j = f (a.data i j) (b.data i j) := by
  unfold npBinop
  rw [← hr, ← hc, bcastDim_self, bcastDim_self]
  refine ⟨_, rfl, rfl, rfl, ?_⟩
  intro i j hi hj
  simp only [bcastIx_lt hi, bcastIx_lt hj]

theorem npDivideWhere_same (num den : NpArr) (junk : ℕ → ℕ → Scalar)
    (hr : num.rows = den.rows) (hc : num.cols = den.cols) :
    ∃ c, npDivideWhere num den junk = some c ∧ c.rows = num.rows ∧
      c.cols = num.cols ∧
      ∀ i j, i < num.rows → j < num.cols →
        c.data i j =
          if scalarNeqZero (den.data i j) then
            scalarDiv (num.data i j) (den.data i j)
          else junk i j := by
  unfold npDivideWhere
  rw [← hr, ← hc, bcastDim_self, bcastDim_self]
  refine ⟨_, rfl, rfl, rfl, ?_⟩
  intro i j hi hj
  simp only [bcastIx_lt hi, bcastIx_lt hj]

theorem water_ndwi_raw_same (green nir : NpArr) (junk : ℕ → ℕ → Scalar)
    (hr : green.rows = nir.rows) (hc : green.cols = nir.cols) :
    ∃ nd, water_ndwi_raw green nir junk = some nd ∧ nd.rows = green.rows ∧
      nd.cols = green.cols ∧
      ∀ i j, i < green.rows → j < green.cols →
        nd.data i j =
          if scalarNeqZero (scalarAdd (green.data i j) (nir.data i j)) then
            scalarDiv (scalarSub (green.data i j) (nir.data i j))
              (scalarAdd (green.data i j) (nir.data i j))
          else junk i j := by
  obtain ⟨num, hnum, hnr, hnc, hnd⟩ := npBinop_same scalarSub green nir hr hc
  obtain ⟨den, hden, hdr, hdc, hdd⟩ := npBinop_same scalarAdd green nir hr hc
  obtain ⟨q, hq, hqr, hqc, hqd⟩ :=
    npDivideWhere_same num den junk (by rw [hnr, hdr]) (by rw [hnc, hdc])
  refine ⟨q, ?_, by rw [hqr, hnr], by rw [hqc, hnc], ?_⟩
  · unfold water_ndwi_raw npSub npAdd
    rw [hnum, hden]
    simpa using hq
  · intro i j hi hj
    rw [hqd i j (by rw [hnr]; exact hi) (by rw [hnc]; exact hj),
        hnd i j hi hj, hdd i j hi hj]

theorem water_ndwi_same (green nir : NpArr) (junk : ℕ → ℕ → Scalar)
    (hr : green.rows = nir.rows) (hc : green.cols = nir.cols) :
    ∃ nd, water_ndwi green nir junk = some nd ∧ nd.rows = green.rows ∧
      nd.cols = green.cols ∧
      ∀ i j, i < green.rows → j < green.cols →
        nd.data i j = fixNanScalar
          (if scalarNeqZero (scalarAdd (green.data i j) (nir.data i j)) then
            scalarDiv (scalarSub (green.data i j) (nir.data i j))
              (scalarAdd (green.data i j) (nir.data i j))
          else junk i j) := by
  obtain ⟨raw, hraw, hrr, hrc, hrd⟩ := water_ndwi_raw_same green nir junk hr hc
  refine ⟨npFixNan raw, ?_, hrr, hrc, ?_⟩
  · unfold water_ndwi
    rw [hraw]
    rfl
  · intro i j hi hj
    show fixNanScalar (raw.data i j) = _
    rw [hrd i j hi hj]

theorem salt_sci_raw_same (green nir red swir : NpArr)
    (hnr : nir.rows = green.rows) (hnc : nir.cols = green.cols)
    (hrr : red.rows = green.rows) (hrc : red.cols = green.cols)
    (hsr : swir.rows = green.rows) (hsc : swir.cols = green.cols) :
    ∃ sci, salt_sci_raw green nir red swir = some sci ∧
      sci.rows = green.rows ∧ sci.cols = green.cols ∧
      ∀ i j, i < green.rows → j < green.cols →
        sci.data i j =
          scalarMul
            (scalarMaxZero
              (scalarSub (scalarSub (red.data i j) (green.data i j))
                (scalarConstMul (3/10)
                  (scalarSub (scalarSub (nir.data i j) (swir.data i j))
                    (scalarSub (red.data i j) (swir.data i j))))))
            (green.data i j) := by
  obtain ⟨s1, h1, h1r, h1c, h1d⟩ := npBinop_same scalarSub red green hrr hrc
  obtain ⟨s2, h2, h2r, h2c, h2d⟩ :=
    npBinop_same scalarSub nir swir (by rw [hnr, hsr]) (by rw [hnc, hsc])
  obtain ⟨s3, h3, h3r, h3c, h3d⟩ :=
    npBinop_same scalarSub red swir (by rw [hrr, hsr]) (by rw [hrc, hsc])
  obtain ⟨s4, h4, h4r, h4c, h4d⟩ :=
    npBinop_same scalarSub s2 s3
      (by rw [h2r, h3r, hnr, hrr]) (by rw [h2c, h3c, hnc, hrc])
  obtain ⟨s6, h6, h6r, h6c, h6d⟩ :=
    npBinop_same scalarSub s1 (npConstMul (3/10) s4)
      (by show s1.rows = s4.rows; rw [h1r, h4r, hrr, h2r, hnr])
      (by show s1.cols = s4.cols; rw [h1c, h4c, hrc, h2c, hnc])
  obtain ⟨sci, hsci, hscir, hscic, hscid⟩ :=
    npBinop_same scalarMul (npMaxZero s6) green
      (by show s6.rows = green.rows; rw [h6r, h1r, hrr])
      (by show s6.cols = green.cols; rw [h6c, h1c, hrc])
  refine ⟨sci, ?_, ?_, ?_, ?_⟩
  · unfold salt_sci_raw npSub npMul
    rw [h1, h2, h3]
    simp only [Option.some_bind]
    rw [h4]
    simp only [Option.some_bind]
    rw [h6]
    simp only [Option.some_bind]
    exact hsci
  · rw [hscir]; show s6.rows = green.rows; rw [h6r, h1r, hrr]
  · rw [hscic]; show s6.cols = green.cols; rw [h6c, h1c, hrc]
  · intro i j hi hj
    have hi1 : i < s1.rows := by rw [h1r, hrr]; exact hi
    have hj1 : j < s1.cols := by rw [h1c, hrc]; exact hj
    have hi2 : i < s2.rows := by rw [h2r, hnr]; exact hi
    have hj2 : j < s2.cols := by rw [h2c, hnc]; exact hj
    have hi6 : i < s6.rows := by rw [h6r]; exact hi1
    have hj6 : j < s6.cols := by rw [h6c]; exact hj1
    have hmax : i < (npMaxZero s6).rows ∧ j < (npMaxZero s6).cols := ⟨hi6, hj6⟩
    rw [hscid i j hmax.1 hmax.2]
    show scalarMul (scalarMaxZero (s6.data i j)) (green.data i j) = _
    rw [h6d i j hi1 hj1]
    show scalarMul (scalarMaxZero (scalarSub (s1.data i j)
      (scalarConstMul (3/10) (s4.data i j)))) (green.data i j) = _
    rw [h1d i j (by rw [hrr]; exact hi) (by rw [hrc]; exact hj),
        h4d i j hi2 hj2,
        h2d i j (by rw [hnr]; exact hi) (by rw [hnc]; exact hj),
        h3d i j (by rw [hrr]; exact hi) (by rw [hrc]; exact hj)]

theorem npCount_mono (a : NpArr) (p q : Scalar → Bool)
    (h : ∀ s, p s = true → q s = true) : npCount a p ≤ npCount a q := by
  unfold npCount
  apply Finset.card_le_card
  intro ij hij
  rw [Finset.mem_filter] at hij ⊢
  exact ⟨hij.1, h _ hij.2⟩

theorem npBinop_none (f : Scalar → Scalar → Scalar) (a b : NpArr)
    (h : bcastDim a.rows b.rows = none ∨ bcastDim a.cols b.cols = none) :
    npBinop f a b = none := by
  unfold npBinop
  cases h1 : bcastDim a.rows b.rows <;> cases h2 : bcastDim a.cols b.cols <;>
    simp_all

/-- C5: for every set of same-shaped red, green, near-infrared, and
short-wave-infrared arrays, the SCI index computed by `calculate_salt_area`
equals, elementwise, `max ((red − green) − 0.3·((nir − swir) − (red − swir))) 0
· green`: the raw expression, clamped below at zero, weighted by the green
band. Stated at every in-shape pixel whose four band values are finite. -/
theorem C5_sci_formula (green nir red swir : NpArr)
    (hnr : nir.rows = green.rows) (hnc : nir.cols = green.cols)
    (hrr : red.rows = green.rows) (hrc : red.cols = green.cols)
    (hsr : swir.rows = green.rows) (hsc : swir.cols = green.cols) :
    ∃ sci, salt_sci green nir red swir = some sci ∧
      sci.rows = green.rows ∧ sci.cols = green.cols ∧
      ∀ i j g n r s, i < green.rows → j < green.cols →
        green.data i j = some g → nir.data i j = some n →
        red.data i j = some r → swir.data i j = some s →
        sci.data i j =
          some (max ((r - g) - 3/10 * ((n - s) - (r - s))) 0 * g) := by
  obtain ⟨raw, hraw, hr1, hc1, hd⟩ :=
    salt_sci_raw_same green nir red swir hnr hnc hrr hrc hsr hsc
  refine ⟨npFixNan raw, ?_, hr1, hc1, ?_⟩
  · unfold salt_sci
    rw [hraw]
    rfl
  · intro i j g n r s hi hj hg hn hr hs
    show fixNanScalar (raw.data i j) = _
    rw [hd i j hi hj, hg, hn, hr, hs]
    simp [scalarSub, scalarConstMul, scalarMaxZero, scalarMul, fixNanScalar]

/-- C5 witness: concrete 1×1 bands green = 2, nir = 1, red = 5, swir = 3
give SCI = max((5−2) − 0.3·((1−3) − (5−3)), 0) · 2 = 42/5. -/
theorem C5_sci_formula_witness :
    ∃ sci, salt_sci s5Green s5Nir s5Red s5Swir = some sci ∧
      sci.rows = 1 ∧ sci.cols = 1 ∧ sci.data 0 0 = some (42/5) := by
  obtain ⟨sci, h1, h2, h3, h4⟩ :=
    C5_sci_formula s5Green s5Nir s5Red s5Swir rfl rfl rfl rfl rfl rfl
  refine ⟨sci, h1, h2, h3, ?_⟩
  rw [h4 0 0 2 1 5 3 (by decide) (by decide) rfl rfl rfl rfl]
  norm_num

/-- C6: in both variants, every not-a-number entry of the raw index array is
replaced by 0 before the mask comparison: the array the mask is evaluated on
(`water_ndwi` resp. `salt_sci`) is the NaN fixup of the raw index, reads 0 at
every raw-NaN position, and contains no NaN at all. -/
theorem C6_nan_replaced :
    (∀ green nir junk raw, water_ndwi_raw green nir junk = some raw →
      water_ndwi green nir junk = some (npFixNan raw) ∧
      ∀ i j, (raw.data i j = none → (npFixNan raw).data i j = some 0) ∧
        ∃ q, (npFixNan raw).data i j = some q)
  ∧ (∀ green nir red swir raw, salt_sci_raw green nir red swir = some raw →
      salt_sci green nir red swir = some (npFixNan raw) ∧
      ∀ i j, (raw.data i j = none → (npFixNan raw).data i j = some 0) ∧
        ∃ q, (npFixNan raw).data i j = some q) := by
  constructor
  · intro green nir junk raw h
    refine ⟨by unfold water_ndwi; rw [h]; rfl, ?_⟩
    intro i j
    constructor
    · intro hn
      show fixNanScalar (raw.data i j) = some 0
      rw [hn]
      rfl
    · show ∃ q, fixNanScalar (raw.data i j) = some q
      cases hc : raw.data i j with
      | none => exact ⟨0, rfl⟩
      | some x => exact ⟨x, rfl⟩
  · intro green nir red swir raw h
    refine ⟨by unfold salt_sci; rw [h]; rfl, ?_⟩
    intro i j
    constructor
    · intro hn
      show fixNanScalar (raw.data i j) = some 0
      rw [hn]
      rfl
    · show ∃ q, fixNanScalar (raw.data i j) = some q
      cases hc : raw.data i j with
      | none => exact ⟨0, rfl⟩
      | some x => exact ⟨x, rfl⟩

/-- C6 witness: a 1×1 green band holding NaN produces a NaN raw NDWI entry,
and the fixup makes the mask-stage array read exactly 0 there. -/
theorem C6_nan_replaced_witness :
    ∃ raw, water_ndwi_raw nanG nanN nanJunk = some raw ∧
      raw.data 0 0 = none ∧ (npFixNan raw).data 0 0 = some 0 := by
  refine ⟨(water_ndwi_raw nanG nanN nanJunk).getD ⟨0, 0, fun _ _ => none⟩,
    rfl, rfl, ?_⟩
  have h := C6_nan_replaced.1 nanG nanN nanJunk _ rfl
  exact (h.2 0 0).1 rfl

/-- C8: the renderer's sort step (`time_series_data.sort()`) orders the
accumulated `(year, area)` samples lexicographically: primary key year
ascending, secondary key the area value; on the spec's example it yields
ascending-year order. -/
theorem C8_render_sort :
    (∀ l : List (ℕ × ℚ), (plot_sort l).Perm l ∧ List.Sorted tupleLe (plot_sort l))
  ∧ plot_sort [(2005, 10), (2001, 5), (2003, 7)] =
      [(2001, 5), (2003, 7), (2005, 10)]
  ∧ plot_sort [(2001, 9), (2001, 3)] = [(2001, 3), (2001, 9)] := by
  refine ⟨fun l => ⟨List.perm_insertionSort tupleLe l,
    List.sorted_insertionSort tupleLe l⟩, ?_, ?_⟩ <;> decide

/-- C9: the NDWI mask is `index > T` with strict inequality (false on no
pixel value only when above the threshold), and for a fixed index array the
masked-pixel count is antitone in the threshold; consequently the area
`calculate_water_area` returns is antitone in the threshold as well. -/
theorem C9_threshold_antitone :
    (∀ (x t : ℚ), scalarGt (some x) t = true ↔ t < x)
  ∧ (∀ (a : NpArr) (T1 T2 : ℚ), T1 ≤ T2 →
      npCount a (fun s => scalarGt s T2) ≤ npCount a (fun s => scalarGt s T1))
  ∧ (∀ (f : RasterFile) (gb nb : ℕ) (T1 T2 pa a1 a2 : ℚ), T1 ≤ T2 → 0 ≤ pa →
      calculate_water_area f gb nb T1 pa = some a1 →
      calculate_water_area f gb nb T2 pa = some a2 → a2 ≤ a1) := by
  have key : ∀ (a : NpArr) (T1 T2 : ℚ), T1 ≤ T2 →
      npCount a (fun s => scalarGt s T2) ≤ npCount a (fun s => scalarGt s T1) := by
    intro a T1 T2 h
    apply npCount_mono
    intro s hs
    cases s with
    | none => simp [scalarGt] at hs
    | some x =>
        simp only [scalarGt, decide_eq_true_eq] at hs ⊢
        linarith
  refine ⟨?_, key, ?_⟩
  · intro x t
    simp [scalarGt]
  · intro f gb nb T1 T2 pa a1 a2 hT hpa h1 h2
    unfold calculate_water_area at h1 h2
    cases hd : f.dataset with
    | none => rw [hd] at h1; simp at h1
    | some bands =>
      rw [hd] at h1 h2
      dsimp only at h1 h2
      cases hg : bands gb with
      | none =>
          cases hn : bands nb with
          | none => rw [hg, hn] at h1; simp at h1
          | some nir => rw [hg, hn] at h1; simp at h1
      | some green =>
        cases hn : bands nb with
        | none => rw [hg, hn] at h1; simp at h1
        | some nir =>
          rw [hg, hn] at h1 h2
          dsimp only at h1 h2
          cases hw : water_ndwi green nir f.junk with
          | none => rw [hw] at h1; simp at h1
          | some nd =>
            rw [hw] at h1 h2
            simp only [Option.some.injEq] at h1 h2
            rw [← h1, ← h2]
            have := key nd T1 T2 hT
            exact mul_le_mul_of_nonneg_right (by exact_mod_cast this) hpa

/-- C9 witness: on the concrete 1×2 index array with values 1 and 0,
raising the threshold from 0 to 1 does not increase the masked count. -/
theorem C9_threshold_antitone_witness :
    npCount a9 (fun s => scalarGt s 1) ≤ npCount a9 (fun s => scalarGt s 0) :=
  C9_threshold_antitone.2.1 a9 0 1 (by norm_num)

theorem yearAt_bounds : ∀ (l : List Char) (y : ℕ),
    yearAt l = some y → 1900 ≤ y ∧ y ≤ 2099 := by
  intro l y h
  match l with
  | [] => simp [yearAt] at h
  | [c0] => simp [yearAt] at h
  | [c0, c1] => simp [yearAt] at h
  | [c0, c1, c2] => simp [yearAt] at h
  | c0 :: c1 :: c2 :: c3 :: rest =>
    simp only [yearAt] at h
    split at h
    next hcond =>
      obtain ⟨h19, hd2, hd3⟩ := hcond
      obtain ⟨y2lo, y2hi⟩ : 48 ≤ c2.toNat ∧ c2.toNat ≤ 57 := by
        simpa [isAsciiDigit] using hd2
      obtain ⟨y3lo, y3hi⟩ : 48 ≤ c3.toNat ∧ c3.toNat ≤ 57 := by
        simpa [isAsciiDigit] using hd3
      obtain rfl : y = 1000 * digitVal c0 + 100 * digitVal c1
          + 10 * digitVal c2 + digitVal c3 := (Option.some.inj h).symm
      unfold digitVal
      rcases h19 with ⟨rfl, rfl⟩ | ⟨rfl, rfl⟩
      · have e0 : ('1' : Char).toNat = 49 := rfl
        have e1 : ('9' : Char).toNat = 57 := rfl
        rw [e0, e1]
        omega
      · have e0 : ('2' : Char).toNat = 50 := rfl
        have e1 : ('0' : Char).toNat = 48 := rfl
        rw [e0, e1]
        omega
    next => simp at h

theorem extract_year_first : ∀ (l : List Char) (y : ℕ),
    extract_year_from_filename l = some y →
    ∃ i, yearAt (List.drop i l) = some y ∧
      ∀ j, j < i → yearAt (List.drop j l) = none := by
  intro l
  induction l with
  | nil => intro y h; simp [extract_year_from_filename] at h
  | cons c rest ih =>
    intro y h
    unfold extract_year_from_filename at h
    cases hy : yearAt (c :: rest) with
    | some y0 =>
      rw [hy] at h
      obtain rfl : y0 = y := Option.some.inj h
      exact ⟨0, by simpa using hy, fun j hj => absurd hj (Nat.not_lt_zero j)⟩
    | none =>
      rw [hy] at h
      obtain ⟨i, hi, hj⟩ := ih y h
      refine ⟨i + 1, by simpa using hi, ?_⟩
      intro j hjlt
      cases j with
      | zero => simpa using hy
      | succ j0 => simpa using hj j0 (by omega)

theorem extract_year_complete : ∀ l : List Char,
    (∀ i, yearAt (List.drop i l) = none) →
    extract_year_from_filename l = none := by
  intro l
  induction l with
  | nil => intro _; rfl
  | cons c rest ih =>
    intro h
    unfold extract_year_from_filename
    have h0 := h 0
    simp only [List.drop_zero] at h0
    rw [h0]
    exact ih (fun i => by simpa using h (i + 1))

/-- C7: `extract_year_from_filename` returns the integer value of the
leftmost 4-character substring matching `(19|20)\d\d` — so any result lies
in 1900–2099 and every earlier start position has no match — and returns the
no-year signal `none` when no position matches; on the spec's examples it
yields 2003 resp. the no-year signal; and a file whose name yields the
no-year signal contributes no sample in either driver loop. -/
theorem C7_extract_year :
    (∀ (l : List Char) (y : ℕ), extract_year_from_filename l = some y →
      (1900 ≤ y ∧ y ≤ 2099) ∧
      ∃ i, yearAt (List.drop i l) = some y ∧
        ∀ j, j < i → yearAt (List.drop j l) = none)
  ∧ (∀ l : List Char, (∀ i, yearAt (List.drop i l) = none) →
      extract_year_from_filename l = none)
  ∧ extract_year_from_filename "salinity_2003_band4.tif".toList = some 2003
  ∧ extract_year_from_filename "no_date_here.tif".toList = none
  ∧ (∀ f : RasterFile, extract_year_from_filename f.name.toList = none →
      water_processFile f = none ∧ salt_processFile f = none) := by
  refine ⟨?_, extract_year_complete, by decide, by decide, ?_⟩
  · intro l y h
    obtain ⟨i, hi, hj⟩ := extract_year_first l y h
    exact ⟨yearAt_bounds _ y hi, ⟨i, hi, hj⟩⟩
  · intro f h
    constructor
    · unfold water_processFile
      split
      · rw [h]
      · rfl
    · unfold salt_processFile
      split
      · rw [h]
      · rfl

/-- C7 witness: the first conjunct applied to the spec's positive example. -/
theorem C7_extract_year_witness :
    ((1900 ≤ 2003 ∧ 2003 ≤ 2099) ∧
      ∃ i, yearAt (List.drop i "salinity_2003_band4.tif".toList) = some 2003 ∧
        ∀ j, j < i →
          yearAt (List.drop j "salinity_2003_band4.tif".toList) = none) :=
  C7_extract_year.1 "salinity_2003_band4.tif".toList 2003 (by decide)

/-- C10: every area a successful `calculate_water_area` /
`calculate_salt_area` call returns is a natural pixel count times the pixel
area; with the drivers' fixed `pixel_area = 900.0` every sample ever
appended to either time series has the form `count × 900` and is
non-negative — an invariant of the whole accumulated series at every point
of the run (the loops only append such samples). -/
theorem C10_area_invariant :
    (∀ (f : RasterFile) (gb nb : ℕ) (t pa a : ℚ),
      calculate_water_area f gb nb t pa = some a → ∃ c : ℕ, a = c * pa)
  ∧ (∀ (f : RasterFile) (gb nb rb sb : ℕ) (tmin tmax pa a : ℚ),
      calculate_salt_area f gb nb rb sb tmin tmax pa = some a →
      ∃ c : ℕ, a = c * pa)
  ∧ (∀ (files : List RasterFile) (s : ℕ × ℚ), s ∈ water_loop files →
      (∃ c : ℕ, s.2 = c * 900) ∧ 0 ≤ s.2)
  ∧ (∀ (files : List RasterFile) (s : ℕ × ℚ), s ∈ salt_loop files →
      (∃ c : ℕ, s.2 = c * 900) ∧ 0 ≤ s.2) := by
  have water_val : ∀ (f : RasterFile) (gb nb : ℕ) (t pa a : ℚ),
      calculate_water_area f gb nb t pa = some a → ∃ c : ℕ, a = c * pa := by
    intro f gb nb t pa a h
    unfold calculate_water_area at h
    cases hd : f.dataset with
    | none => rw [hd] at h; simp at h
    | some bands =>
      rw [hd] at h
      dsimp only at h
      cases hg : bands gb with
      | none =>
          cases hn : bands nb with
          | none => rw [hg, hn] at h; simp at h
          | some nir => rw [hg, hn] at h; simp at h
      | some green =>
        cases hn : bands nb with
        | none => rw [hg, hn] at h; simp at h
        | some nir =>
          rw [hg, hn] at h
          dsimp only at h
          cases hw : water_ndwi green nir f.junk with
          | none => rw [hw] at h; simp at h
          | some nd =>
            rw [hw] at h
            exact ⟨npCount nd (fun s => scalarGt s t), (Option.some.inj h).symm⟩
  have salt_val : ∀ (f : RasterFile) (gb nb rb sb : ℕ) (tmin tmax pa a : ℚ),
      calculate_salt_area f gb nb rb sb tmin tmax pa = some a →
      ∃ c : ℕ, a = c * pa := by
    intro f gb nb rb sb tmin tmax pa a h
    unfold calculate_salt_area at h
    cases hd : f.dataset with
    | none => rw [hd] at h; simp at h
    | some bands =>
      rw [hd] at h
      dsimp only at h
      cases hg : bands gb with
      | none =>
          cases hn : bands nb <;> cases hr : bands rb <;> cases hs : bands sb <;>
            rw [hg, hn, hr, hs] at h <;> simp at h
      | some green =>
        cases hn : bands nb with
        | none =>
            cases hr : bands rb <;> cases hs : bands sb <;>
              rw [hg, hn, hr, hs] at h <;> simp at h
        | some nir =>
          cases hr : bands rb with
          | none =>
              cases hs : bands sb <;> rw [hg, hn, hr, hs] at h <;> simp at h
          | some red =>
            cases hs : bands sb with
            | none => rw [hg, hn, hr, hs] at h; simp at h
            | some swir =>
              rw [hg, hn, hr, hs] at h
              dsimp only at h
              cases hw : salt_sci green nir red swir with
              | none => rw [hw] at h; simp at h
              | some sci =>
                rw [hw] at h
                exact ⟨npCount sci (fun s => scalarBetween s tmin tmax),
                  (Option.some.inj h).symm⟩
  have water_loop_inv : ∀ (files : List RasterFile) (s : ℕ × ℚ),
      s ∈ water_loop files → (∃ c : ℕ, s.2 = c * 900) ∧ 0 ≤ s.2 := by
    intro files s hs
    obtain ⟨f, hf, hpf⟩ := List.mem_filterMap.mp hs
    unfold water_processFile at hpf
    split at hpf
    · cases he : extract_year_from_filename f.name.toList with
      | none => rw [he] at hpf; simp at hpf
      | some year =>
        rw [he] at hpf
        dsimp only at hpf
        split at hpf
        · cases hc : calculate_water_area f 2 4 (1/5) 900 with
          | none => rw [hc] at hpf; simp at hpf
          | some a =>
            rw [hc] at hpf
            obtain rfl : (year, a) = s := by simpa using hpf
            obtain ⟨c, hcq⟩ := water_val f 2 4 (1/5) 900 a hc
            refine ⟨⟨c, hcq⟩, ?_⟩
            show (0 : ℚ) ≤ a
            rw [hcq]
            positivity
        · simp at hpf
    · simp at hpf
  have salt_loop_inv : ∀ (files : List RasterFile) (s : ℕ × ℚ),
      s ∈ salt_loop files → (∃ c : ℕ, s.2 = c * 900) ∧ 0 ≤ s.2 := by
    intro files s hs
    obtain ⟨f, hf, hpf⟩ := List.mem_filterMap.mp hs
    unfold salt_processFile at hpf
    split at hpf
    · cases he : extract_year_from_filename f.name.toList with
      | none => rw [he] at hpf; simp at hpf
      | some year =>
        rw [he] at hpf
        dsimp only at hpf
        split at hpf
        · cases hc : calculate_salt_area f 1 4 3 6 (1/25) (3/20) 900 with
          | none => rw [hc] at hpf; simp at hpf
          | some a =>
            rw [hc] at hpf
            obtain rfl : (year, a) = s := by simpa using hpf
            obtain ⟨c, hcq⟩ := salt_val f 1 4 3 6 (1/25) (3/20) 900 a hc
            refine ⟨⟨c, hcq⟩, ?_⟩
            show (0 : ℚ) ≤ a
            rw [hcq]
            positivity
        · simp at hpf
    · simp at hpf
  exact ⟨water_val, salt_val, water_loop_inv, salt_loop_inv⟩

/-- C10 witness: the loop invariant applied to a concrete one-file run of
each variant. -/
theorem C10_area_invariant_witness :
    ((∃ c : ℕ, ((2003, (0 : ℚ)) : ℕ × ℚ).2 = c * 900) ∧
      0 ≤ ((2003, (0 : ℚ)) : ℕ × ℚ).2) ∧
    ((∃ c : ℕ, ((2003, (0 : ℚ)) : ℕ × ℚ).2 = c * 900) ∧
      0 ≤ ((2003, (0 : ℚ)) : ℕ × ℚ).2) :=
  ⟨C10_area_invariant.2.2.1 [exFile] (2003, 0) (by with_unfolding_all decide),
   C10_area_invariant.2.2.2 [exFile] (2003, 0) (by with_unfolding_all decide)⟩

/-- C1 counterexample: with green = [[3, 1]] and NIR = [[−1, −1]] and an
uninitialised buffer holding 7.0, `calculate_water_area`'s NDWI array is
[[2, 7]]: at pixel (0,0) the denominator is 2 ≠ 0 yet the value 2 lies
outside [−1, 1], and at pixel (0,1) the denominator is exactly 0 yet the
returned value is 7 (the buffer content, not replaced because it is not
NaN), not 0. -/
theorem C1_ndwi_counterexample :
    (water_ndwi c1Green c1Nir c1Junk).map
      (fun nd => (nd.data 0 0, nd.data 0 1)) = some (some 2, some 7)
  ∧ scalarAdd (c1Green.data 0 0) (c1Nir.data 0 0) = some 2
  ∧ scalarAdd (c1Green.data 0 1) (c1Nir.data 0 1) = some 0
  ∧ ¬ ((2 : ℚ) ≤ 1) ∧ (7 : ℚ) ≠ 0 := by
  refine ⟨?_, ?_, ?_, ?_, ?_⟩ <;> with_unfolding_all decide

/-- C1 as amended: for same-shaped bands, at every in-shape pixel with
finite band values, the NDWI value equals (green − nir)/(green + nir)
whenever the denominator is nonzero, and lies in [−1, 1] when moreover both
band values are non-negative; at a pixel whose denominator is exactly zero
the value is the uninitialised output-buffer content at that position (with
NaN read as 0) — 0 only when that buffer content happens to be NaN or 0. -/
theorem C1_ndwi_amended (green nir : NpArr) (junk : ℕ → ℕ → Scalar)
    (hr : green.rows = nir.rows) (hc : green.cols = nir.cols) :
    ∃ nd, water_ndwi green nir junk = some nd ∧ nd.rows = green.rows ∧
      nd.cols = green.cols ∧
      ∀ i j g n, i < green.rows → j < green.cols →
        green.data i j = some g → nir.data i j = some n →
        (g + n ≠ 0 →
          nd.data i j = some ((g - n) / (g + n)) ∧
          (0 ≤ g → 0 ≤ n →
            -1 ≤ (g - n) / (g + n) ∧ (g - n) / (g + n) ≤ 1)) ∧
        (g + n = 0 → nd.data i j = fixNanScalar (junk i j)) := by
  obtain ⟨nd, hnd, hndr, hndc, hd⟩ := water_ndwi_same green nir junk hr hc
  refine ⟨nd, hnd, hndr, hndc, ?_⟩
  intro i j g n hi hj hg hn
  have hdij := hd i j hi hj
  rw [hg, hn] at hdij
  constructor
  · intro hne
    have hcond : scalarNeqZero (scalarAdd (some g) (some n)) = true := by
      simp [scalarAdd, scalarNeqZero, hne]
    rw [if_pos hcond] at hdij
    constructor
    · rw [hdij]
      simp [scalarDiv, scalarSub, scalarAdd, fixNanScalar, hne]
    · intro hg0 hn0
      have hpos : 0 < g + n := lt_of_le_of_ne (by positivity) (Ne.symm hne)
      constructor
      · rw [le_div_iff₀ hpos]
        linarith
      · rw [div_le_one hpos]
        linarith
  · intro heq
    have hcond : scalarNeqZero (scalarAdd (some g) (some n)) = false := by
      simp [scalarAdd, scalarNeqZero, heq]
    rw [if_neg (by simp [hcond])] at hdij
    exact hdij

/-- C1 witness: green = [[2]], nir = [[9]] gives denominator 11 ≠ 0 and
NDWI value (2 − 9)/11 = −7/11 ∈ [−1, 1]. -/
theorem C1_ndwi_amended_witness :
    ∃ nd, water_ndwi w1Green w1Nir w1Junk = some nd ∧
      nd.data 0 0 = some (((2 : ℚ) - 9) / (2 + 9)) ∧
      -1 ≤ ((2 : ℚ) - 9) / (2 + 9) ∧ ((2 : ℚ) - 9) / (2 + 9) ≤ 1 := by
  obtain ⟨nd, hnd, _, _, h⟩ := C1_ndwi_amended w1Green w1Nir w1Junk rfl rfl
  have h00 := h 0 0 2 9 (by decide) (by decide) rfl rfl
  have hne : (2 : ℚ) + 9 ≠ 0 := by norm_num
  obtain ⟨hval, hrange⟩ := h00.1 hne
  exact ⟨nd, hnd, hval, hrange (by norm_num) (by norm_num)⟩

set_option maxRecDepth 8000 in
/-- C2 counterexample: a file whose green band (band 2) is 1×1 and NIR band
(band 4) is 2×1 — the bands do *not* share dimensions — is nevertheless
computed by numpy broadcasting: `calculate_water_area` succeeds, returns
2 · 900 = 1800, and the driver records a sample for the file instead of
skipping it. -/
theorem C2_shape_counterexample :
    (c2Green.rows, c2Green.cols) ≠ (c2Nir.rows, c2Nir.cols)
  ∧ c2File.dataset = some (fun b => if b = 2 then some c2Green else some c2Nir)
  ∧ calculate_water_area c2File 2 4 (1/5) 900 = some 1800
  ∧ water_loop [c2File] = [(2003, 1800)] := by
  refine ⟨by decide, rfl, ?_, ?_⟩ <;> with_unfolding_all decide

/-- C2 as amended: a shape mismatch that numpy cannot broadcast (neither
dimension pair equal or 1) raises `ValueError` inside the elementwise
arithmetic; the exception handler returns the per-file failure `None`, no
sample is recorded, and the loop continues with the remaining files.
(Broadcast-compatible mismatches, as in the counterexample, are computed
silently — there is no up-front shape validation.) -/
theorem C2_shape_amended :
    (∀ (f : RasterFile) (bands : ℕ → Option NpArr) (green nir : NpArr)
        (gb nb : ℕ) (t pa : ℚ),
      f.dataset = some bands → bands gb = some green → bands nb = some nir →
      (bcastDim green.rows nir.rows = none ∨ bcastDim green.cols nir.cols = none) →
      calculate_water_area f gb nb t pa = none)
  ∧ (∀ (f : RasterFile) (bands : ℕ → Option NpArr) (green nir red swir : NpArr)
        (gb nb rb sb : ℕ) (tmin tmax pa : ℚ),
      f.dataset = some bands → bands gb = some green → bands nb = some nir →
      bands rb = some red → bands sb = some swir →
      (bcastDim red.rows green.rows = none ∨ bcastDim red.cols green.cols = none) →
      calculate_salt_area f gb nb rb sb tmin tmax pa = none)
  ∧ (∀ f : RasterFile, calculate_water_area f 2 4 (1/5) 900 = none →
      water_processFile f = none)
  ∧ (∀ f : RasterFile, calculate_salt_area f 1 4 3 6 (1/25) (3/20) 900 = none →
      salt_processFile f = none)
  ∧ (∀ (fs1 fs2 : List RasterFile) (f : RasterFile), water_processFile f = none →
      water_loop (fs1 ++ f :: fs2) = water_loop (fs1 ++ fs2))
  ∧ (∀ (fs1 fs2 : List RasterFile) (f : RasterFile), salt_processFile f = none →
      salt_loop (fs1 ++ f :: fs2) = salt_loop (fs1 ++ fs2)) := by
  refine ⟨?_, ?_, ?_, ?_, ?_, ?_⟩
  · intro f bands green nir gb nb t pa hd hg hn hbc
    unfold calculate_water_area
    rw [hd]
    dsimp only
    rw [hg, hn]
    dsimp only
    have hsub : npSub green nir = none := npBinop_none scalarSub green nir hbc
    have : water_ndwi green nir f.junk = none := by
      unfold water_ndwi water_ndwi_raw
      rw [hsub]
      rfl
    rw [this]
  · intro f bands green nir red swir gb nb rb sb tmin tmax pa hd hg hn hr hs hbc
    unfold calculate_salt_area
    rw [hd]
    dsimp only
    rw [hg, hn, hr, hs]
    dsimp only
    have hsub : npSub red green = none := npBinop_none scalarSub red green hbc
    have : salt_sci green nir red swir = none := by
      unfold salt_sci salt_sci_raw
      rw [hsub]
      rfl
    rw [this]
  · intro f h
    unfold water_processFile
    split
    · cases he : extract_year_from_filename f.name.toList with
      | none => rfl
      | some year =>
          dsimp only
          split
          · rw [h]
            rfl
          · rfl
    · rfl
  · intro f h
    unfold salt_processFile
    split
    · cases he : extract_year_from_filename f.name.toList with
      | none => rfl
      | some year =>
          dsimp only
          split
          · rw [h]
            rfl
          · rfl
    · rfl
  · intro fs1 fs2 f h
    unfold water_loop
    simp [List.filterMap_append, List.filterMap_cons, h]
  · intro fs1 fs2 f h
    unfold salt_loop
    simp [List.filterMap_append, List.filterMap_cons, h]

/-- C2 witness: on the file whose band 2 is 2×1 and band 4 is 3×1 (not
broadcast-compatible), the water computation fails per-file and the loop
yields the same series as if the file were absent. -/
theorem C2_shape_amended_witness :
    calculate_water_area w2File 2 4 (1/5) 900 = none
  ∧ water_loop ([] ++ w2File :: [exFile]) = water_loop ([] ++ [exFile]) := by
  have h1 : calculate_water_area w2File 2 4 (1/5) 900 = none :=
    C2_shape_amended.1 w2File _ w2A w2B 2 4 (1/5) 900 rfl rfl rfl
      (Or.inl (by decide))
  have h2 : water_processFile w2File = none := C2_shape_amended.2.2.1 w2File h1
  exact ⟨h1, C2_shape_amended.2.2.2.2.1 [] [exFile] w2File h2⟩

/-- C3: `water_area.py` does print usage and exit 1 on a wrong argument
count (and proceeds on exactly one positional argument), but `salt_area.py`
never imports `sys`, so its very first `__main__` statement
`len(sys.argv)` raises an uncaught `NameError` for *every* invocation: the
run terminates non-zero with a traceback, and the usage text is never
printed — contradicting the claim for the salt variant. -/
theorem C3_cli_argument_check :
    water_main ["water_area.py"] true [] = RunOutcome.usageExit 1
  ∧ water_main ["water_area.py", "a", "b"] true [] = RunOutcome.usageExit 1
  ∧ water_main ["water_area.py", "imgs"] true [] = RunOutcome.completed []
  ∧ "sys" ∉ salt_imports
  ∧ (∀ (argv : List String) (dirExists : Bool) (files : List RasterFile),
      salt_main argv dirExists files = RunOutcome.uncaughtError "NameError") := by
  refine ⟨by decide, by decide, by decide, by decide, ?_⟩
  intro argv dirExists files
  have h : "sys" ∉ salt_imports := by decide
  simp [salt_main, h]

/-- C4: on a nonexistent directory `water_area.py` prints the error and
exits 1 as claimed; but `salt_area.py` never reaches its directory check —
the missing `import sys` makes `len(sys.argv)` raise `NameError` first, so
the salt run terminates non-zero with a traceback instead of logging the
directory error and continuing into an empty scan with exit status 0. -/
theorem C4_missing_directory :
    water_main ["water_area.py", "missing_dir"] false [] = RunOutcome.dirErrorExit 1
  ∧ salt_main ["salt_area.py", "missing_dir"] false [] =
      RunOutcome.uncaughtError "NameError"
  ∧ RunOutcome.uncaughtError "NameError" ≠ RunOutcome.dirErrorEnd := by
  refine ⟨by decide, by decide, by decide⟩
